import Mathlib

/-! Verification development for the e-commerce service.

A shallow embedding of the Go sources

* `cmd/db/main.go` (migration runner: `validatedArgs`, `run`, `main`),
* `internal/app/helperdependency/crypto/bcrypt.go` (`Bcrypt.Hash`, `Bcrypt.Compare`),
* `internal/app/helpers/codec.go` (`Encode`, `DecodeValid`),
* `internal/app/app.go` (`Run`, with its two goroutines),

together with theorems about them.  Go `error` values are modelled by `GoError`,
a nil error by `none`.  Calls into packages outside the sources (bcrypt, json,
migrate, sqldb, the constructors wired in `Run`) are parameters of the
embedding: the code is proved for every behaviour of those collaborators.
-/

namespace Ecommerce

/-! ## Go errors -/

/-- A Go `error` value: a message, possibly wrapping another error (`%w`). -/
inductive GoError where
  | leaf (msg : String)
  | wrap (msg : String) (inner : GoError)
  deriving DecidableEq, Repr

/-- The method `Error()` of an error: its message. -/
def GoError.Error : GoError → String
  | .leaf m => m
  | .wrap m _ => m

/-- The function `errors.Unwrap`: the error wrapped with `%w`, if any. -/
def GoError.Unwrap : GoError → Option GoError
  | .leaf _ => none
  | .wrap _ e => some e

/-- The function `errors.New`. -/
def errorsNew (msg : String) : GoError := .leaf msg

/-- The call `fmt.Errorf(pre ++ "%w", err)`: with a non-nil operand the result wraps
it and its message is the prefix followed by the operand's message; with a nil
operand `fmt` prints the bad-verb form and the result wraps nothing.  In both
cases the result is a non-nil error. -/
def ErrorfW (pre : String) (err : Option GoError) : GoError :=
  match err with
  | some e => .wrap (pre ++ e.Error) e
  | none => .leaf (pre ++ "%!w(<nil>)")

/-! ## cmd/db/main.go -/

def upArg : String := "-up"

def downArg : String := "-down"

/-- A run-time panic of the Go program. -/
inductive GoPanic where
  | indexOutOfRange (index length : Nat)
  deriving DecidableEq, Repr

/-- The function `validatedArgs` of `cmd/db/main.go`.  The index expression
`args[1]` is modelled as fallible: out of range it panics. -/
def validatedArgs (args : List String) : Except GoPanic (String × Option GoError) :=
  let argsLength := args.length
  if argsLength != 2 then
    .ok ("", some (errorsNew "invalid args length. only 1 given arg is allowed"))
  else
    match args[1]? with
    | none => .error (.indexOutOfRange 1 argsLength)
    | some validArgs =>
      if validArgs != upArg && validArgs != downArg then
        .ok ("", some (errorsNew
          ("invalid arg. allowed arg is either " ++ upArg ++ " or " ++ downArg)))
      else
        .ok (validArgs, none)

/-- The calls `run` makes on its collaborators, in order. -/
inductive MigEvent where
  | configNew
  | migrateNew
  | up
  | down
  deriving DecidableEq, Repr

/-- The collaborators of `run`: what `config.New`, `migrate.New`, `m.Up` and
`m.Down` answer (`none` is a nil error). -/
structure MigEnv where
  configErr : Option GoError
  migrateErr : Option GoError
  upResult : Option GoError
  downResult : Option GoError

/-- The outcome of a call of `run`: the calls made and the returned error, or a panic. -/
structure MigOutcome where
  calls : List MigEvent
  result : Except GoPanic (Option GoError)

/-- The function `run` of `cmd/db/main.go`. -/
def run (env : MigEnv) (args : List String) : MigOutcome :=
  match env.configErr with
  | some err => ⟨[.configNew], .ok (some err)⟩
  | none =>
    match env.migrateErr with
    | some err => ⟨[.configNew, .migrateNew], .ok (some err)⟩
    | none =>
      match validatedArgs args with
      | .error p => ⟨[.configNew, .migrateNew], .error p⟩
      | .ok (_, some err) => ⟨[.configNew, .migrateNew], .ok (some err)⟩
      | .ok (arg, none) =>
        if arg = upArg then
          ⟨[.configNew, .migrateNew, .up], .ok env.upResult⟩
        else if arg = downArg then
          ⟨[.configNew, .migrateNew, .down], .ok env.downResult⟩
        else
          ⟨[.configNew, .migrateNew], .ok (some (errorsNew "no migrate commands executed"))⟩

/-- How the process of `main` ends. -/
inductive ProcessEnd where
  | returned
  | exit (status : Nat)
  | panicked (p : GoPanic)
  deriving DecidableEq, Repr

/-- The function `main` of `cmd/db/main.go`: a non-nil error of `run` is logged
and the process exits with status 1. -/
def main (env : MigEnv) (args : List String) : ProcessEnd :=
  match (run env args).result with
  | .error p => .panicked p
  | .ok (some _) => .exit 1
  | .ok none => .returned

/-! ## internal/app/helperdependency/crypto/bcrypt.go -/

/-- The struct `Bcrypt`. -/
structure Bcrypt where
  cost : Int
  deriving DecidableEq, Repr

/-- The constructor `NewBcrypt`: it never fails. -/
def NewBcrypt (cost : Int) : Bcrypt × Option GoError :=
  (⟨cost⟩, none)

/-- The package `golang.org/x/crypto/bcrypt`, as far as the wrapper uses it.  Go
strings and byte slices are both byte sequences and the conversions
`[]byte(s)`, `string(b)` keep the bytes, so both are `String` here; a nil slice
converts to the empty string. -/
structure BcryptLib where
  GenerateFromPassword : String → Int → String × Option GoError
  CompareHashAndPassword : String → String → Option GoError

/-- The method `Bcrypt.Hash`. -/
def Bcrypt.Hash (lib : BcryptLib) (b : Bcrypt) (plain : String) : String × Option GoError :=
  let (hash, err) := lib.GenerateFromPassword plain b.cost
  (hash, some (ErrorfW "bcrypt hash failed: " err))

/-- The method `Bcrypt.Compare`. -/
def Bcrypt.Compare (lib : BcryptLib) (_b : Bcrypt) (hashed plain : String) : Option GoError :=
  let err := lib.CompareHashAndPassword hashed plain
  match err with
  | some e => some (ErrorfW "bcrypt compare failed: " (some e))
  | none => none

/-! ## internal/app/helpers/codec.go -/

/-- An HTTP header map (`http.Header`), one value per key as `Set` leaves it. -/
abbrev Header := List (String × String)

/-- The method `Header.Set`: the key's values are replaced by the given one. -/
def Header.Set (h : Header) (key value : String) : Header :=
  h.filter (fun p => p.1 != key) ++ [(key, value)]

/-- The method `Header.Get`. -/
def Header.Get (h : Header) (key : String) : Option String :=
  (h.find? (fun p => p.1 == key)).map Prod.snd

/-- The interface `http.ResponseWriter` over a writer state `σ`: the three
methods `Encode` uses.  `WriteHeader` may panic (with the given message). -/
structure ResponseWriterOps (σ : Type) where
  WriteHeader : Int → σ → Except String σ
  HeaderSet : String → String → σ → σ
  Write : String → σ → σ × Option GoError

/-- The struct `respdto.Response[T]`: the envelope with its two fields. -/
structure Response (T : Type) where
  Message : String
  Data : T

/-- The function `Encode` of `codec.go`, over any response writer.  The
parameter `marshal` is `encoding/json` on the envelope; `Encoder.Encode` writes
the encoding followed by a newline, and writes nothing when marshalling fails.
A panic of `WriteHeader` propagates. -/
def Encode {σ T : Type} (ops : ResponseWriterOps σ)
    (marshal : Response T → Except GoError String)
    (w : σ) (statusCode : Int) (message : String) (data : T) :
    Except String (σ × Option GoError) :=
  match ops.WriteHeader statusCode w with
  | .error p => .error p
  | .ok w1 =>
    let w2 := ops.HeaderSet "Content-Type" "application/json" w1
    let response : Response T := { Message := message, Data := data }
    match marshal response with
    | .error e => .ok (w2, some e)
    | .ok js => .ok (ops.Write (js ++ "\n") w2)

/-- The function `bodyAllowedForStatus` of `net/http`. -/
def bodyAllowedForStatus (status : Int) : Bool :=
  if 100 ≤ status ∧ status ≤ 199 then false
  else if status = 204 then false
  else if status = 304 then false
  else true

/-- The function `suppressedHeaders` of `net/http`: the header fields the server
leaves out for a status without a body. -/
def suppressedHeaders (status : Int) : List String :=
  if status = 304 then ["Content-Type", "Content-Length", "Transfer-Encoding"]
  else if !bodyAllowedForStatus status then ["Content-Length", "Transfer-Encoding"]
  else []

/-- The function `checkWriteHeaderCode` of `net/http`: a code outside 100..999
panics, and the message of the panic ends with the code. -/
def checkWriteHeaderCode (code : Int) : Except String Unit :=
  if code < 100 ∨ code > 999 then .error ("invalid WriteHeader code " ++ toString code)
  else .ok ()

/-- The error `http.ErrBodyNotAllowed`. -/
def ErrBodyNotAllowed : GoError := .leaf "http: request method or response status code does not allow body"

/-- The response writer of a `net/http` server connection.  `header` is the map
`Header()` returns.  `sentHeader` holds the fields of that map that go on the
wire with the status line, together with the content type the server sniffs;
the fields the server computes by itself (`Date`, `Content-Length`) are left
out.  `body` is the body sent. -/
structure ServerWriter where
  header : Header
  wroteHeader : Bool
  status : Int
  sentHeader : Header
  body : String
  deriving DecidableEq, Repr

/-- A connection's writer on which nothing has acted yet. -/
def ServerWriter.fresh : ServerWriter :=
  { header := [], wroteHeader := false, status := 0, sentHeader := [], body := "" }

/-- The method `WriteHeader` of the server's writer, after `net/http`: a second
call is ignored; a code outside 100..999 panics; an informational code (1xx other
than 101) is not the final header; otherwise the status is fixed and the header
map is copied for sending, without the fields suppressed for the status, so that
later changes of the map have no effect. -/
def ServerWriter.WriteHeader (code : Int) (w : ServerWriter) : Except String ServerWriter :=
  if w.wroteHeader then .ok w
  else
    match checkWriteHeaderCode code with
    | .error p => .error p
    | .ok _ =>
      if 100 ≤ code ∧ code ≤ 199 ∧ code ≠ 101 then .ok w
      else
        .ok { w with
          wroteHeader := true, status := code,
          sentHeader := w.header.filter (fun p => !(suppressedHeaders code).contains p.1) }

/-- The method `Write` of the server's writer: it sends the header with status
200 when none was written; when the status allows no body it refuses; otherwise
it appends to the body, and when this is the first data of the body and the
header block has neither a content type nor a content or transfer encoding, the
server sets the content type that `http.DetectContentType` (the parameter
`detect`) finds for the data. -/
def ServerWriter.Write (detect : String → String) (p : String) (w : ServerWriter) :
    ServerWriter × Option GoError :=
  let w1 := if w.wroteHeader then w
    else { w with wroteHeader := true, status := 200, sentHeader := w.header }
  if bodyAllowedForStatus w1.status then
    let haveType := (w1.sentHeader.Get "Content-Type").isSome
    let hasCE := (w1.sentHeader.Get "Content-Encoding").getD "" != ""
    let hasTE := (w1.sentHeader.Get "Transfer-Encoding").getD "" != ""
    let sent :=
      if w1.body = "" ∧ p ≠ "" ∧ haveType = false ∧ hasCE = false ∧ hasTE = false then
        w1.sentHeader.Set "Content-Type" (detect p)
      else w1.sentHeader
    ({ w1 with body := w1.body ++ p, sentHeader := sent }, none)
  else (w1, some ErrBodyNotAllowed)

/-- The struct `timeoutWriter` of `net/http`: the writer `http.TimeoutHandler`
hands to the wrapped handler, and so the writer every handler of this program
gets, since `Run` wraps the mux in `http.TimeoutHandler`.  It has its own
header map `h`, buffers the body in `wbuf` and records the status code; `err` is
set once the timeout has fired. -/
structure TimeoutWriter where
  h : Header
  wbuf : String
  err : Option GoError
  wroteHeader : Bool
  code : Int
  deriving DecidableEq, Repr

/-- The writer `http.TimeoutHandler` creates for a request. -/
def TimeoutWriter.fresh : TimeoutWriter :=
  { h := [], wbuf := "", err := none, wroteHeader := false, code := 0 }

/-- The method `writeHeaderLocked` of `timeoutWriter`, which is its
`WriteHeader`: the code is checked first; after the timeout, and on a second
call, nothing changes; otherwise the code is recorded. -/
def TimeoutWriter.WriteHeader (code : Int) (tw : TimeoutWriter) : Except String TimeoutWriter :=
  match checkWriteHeaderCode code with
  | .error p => .error p
  | .ok _ =>
    if tw.err.isSome then .ok tw
    else if tw.wroteHeader then .ok tw
    else .ok { tw with wroteHeader := true, code := code }

/-- The method `Write` of `timeoutWriter`: after the timeout it returns the
error; otherwise it records status 200 when no header was written and appends to
the buffer. -/
def TimeoutWriter.Write (p : String) (tw : TimeoutWriter) : TimeoutWriter × Option GoError :=
  match tw.err with
  | some e => (tw, some e)
  | none =>
    let tw1 := if tw.wroteHeader then tw else { tw with wroteHeader := true, code := 200 }
    ({ tw1 with wbuf := tw1.wbuf ++ p }, none)

/-- The writer of `http.TimeoutHandler` as an `http.ResponseWriter`; `Header()`
returns its own map. -/
def timeoutOps : ResponseWriterOps TimeoutWriter :=
  { WriteHeader := TimeoutWriter.WriteHeader
    HeaderSet := fun k v tw => { tw with h := tw.h.Set k v }
    Write := TimeoutWriter.Write }

/-- What `timeoutHandler.ServeHTTP` does when the handler has ended before the
timeout: it copies the header map of its writer into the connection's, writes
the recorded status code (200 when none was recorded) and the buffered body. -/
def TimeoutWriter.finish (detect : String → String) (tw : TimeoutWriter) (w : ServerWriter) :
    Except String ServerWriter :=
  let w1 := { w with header := tw.h.foldl (fun dst kv => dst.Set kv.1 kv.2) w.header }
  let code := if tw.wroteHeader then tw.code else 200
  match ServerWriter.WriteHeader code w1 with
  | .error p => .error p
  | .ok w2 => .ok (ServerWriter.Write detect tw.wbuf w2).1

/-- A handler of this program that answers with one call of `Encode`, served the
way `Run` wires it (`http.TimeoutHandler` around the mux, on a fresh
connection), the handler ending before the timeout: the response on the
connection and the error `Encode` returned.  A panic of the handler is raised
again by `http.TimeoutHandler`. -/
def serveEncode {T : Type} (detect : String → String)
    (marshal : Response T → Except GoError String)
    (statusCode : Int) (message : String) (data : T) :
    Except String (ServerWriter × Option GoError) :=
  match Encode timeoutOps marshal TimeoutWriter.fresh statusCode message data with
  | .error p => .error p
  | .ok (tw, err) =>
    match tw.finish detect ServerWriter.fresh with
    | .error p => .error p
    | .ok w => .ok (w, err)

/-- The type `customtype.ProblemsMap`, a Go map from field to message: `none` is
the nil map. -/
abbrev ProblemsMap := Option (List (String × String))

/-- The builtin `len` on a map: 0 on the nil map. -/
def ProblemsMap.len : ProblemsMap → Nat
  | none => 0
  | some l => l.length

/-- What `DecodeValid` calls, in order. -/
inductive CodecEvent where
  | decode
  | valid
  deriving DecidableEq, Repr

/-- A payload type `T` with what `DecodeValid` needs of it: its zero value, the
name `%T` prints, `json.Decoder.Decode` into a value of the type (the value it
leaves behind and its error), and the method `Valid` of the interface
`Validator`. -/
structure ValidatorType (Body Ctx T : Type) where
  zero : T
  typeName : String
  jsonDecode : Body → T → T × Option GoError
  Valid : T → Ctx → ProblemsMap

/-- The results of `DecodeValid`, with the calls it made. -/
structure DecodeValidResult (T : Type) where
  payload : T
  problems : ProblemsMap
  err : Option GoError
  calls : List CodecEvent

/-- The function `DecodeValid` of `codec.go` on a request with the given body and
context. -/
def DecodeValid {Body Ctx T : Type} (V : ValidatorType Body Ctx T) (body : Body) (ctx : Ctx) :
    DecodeValidResult T :=
  let (payload, err) := V.jsonDecode body V.zero
  match err with
  | some e =>
    { payload := payload, problems := none,
      err := some (ErrorfW "error decode valid json: " (some e)), calls := [.decode] }
  | none =>
    let problems := V.Valid payload ctx
    if problems.len > 0 then
      { payload := payload, problems := problems,
        err := some (errorsNew
          ("error " ++ V.typeName ++ ": " ++ toString problems.len ++ " problems")),
        calls := [.decode, .valid] }
    else
      { payload := payload, problems := none, err := none, calls := [.decode, .valid] }

/-! ## The transaction manager -/

/-- What a transaction manager does on the connection, in order. -/
inductive TxEvent where
  | begin
  | unitOfWork
  | commit
  | rollback
  deriving DecidableEq, Repr

/-- How a unit of work ends: with a result, with an error, or with a fault
(a panic). -/
inductive UowOutcome (R : Type) where
  | ok (r : R)
  | fail (e : GoError)
  | fault
  deriving Repr

/-- How `RunInTransaction` ends. -/
inductive TxResult (R : Type) where
  | ok (r : R)
  | businessError (e : GoError)
  | transactionError (e : GoError)
  | fault
  deriving Repr

/-- Modelled from the spec: the package `transaction` (type
`SQLTransactionManager`, constructed in `Run` by `transaction.NewManager`) is not
among the sources.  Following the spec's contract of `RunInTransaction`: begin a
transaction, failing with a transaction error if the begin fails; invoke the unit
of work on the transaction handle; if it returns an error or faults, roll back
and propagate the original error unchanged; if it succeeds, attempt the commit,
and propagate a transaction error if the commit fails.  The result carries the
events on the connection. -/
def RunInTransaction {Tx R : Type} (beginTx : Except GoError Tx) (commitErr : Option GoError)
    (unitOfWork : Tx → UowOutcome R) : List TxEvent × TxResult R :=
  match beginTx with
  | .error e => ([.begin], .transactionError e)
  | .ok tx =>
    match unitOfWork tx with
    | .ok r =>
      match commitErr with
      | none => ([.begin, .unitOfWork, .commit], .ok r)
      | some e => ([.begin, .unitOfWork, .commit], .transactionError e)
    | .fail e => ([.begin, .unitOfWork, .rollback], .businessError e)
    | .fault => ([.begin, .unitOfWork, .rollback], .fault)

/-! ## internal/app/app.go -/

/-- The calls `Run` and its goroutines make on their collaborators. -/
inductive RunCall where
  | newDefaultLogger
  | newEnvConfig
  | newBcrypt
  | newDB
  | checkHealth
  | newManager
  | newTestStore
  | newUserStore
  | newTestService
  | newAuthService
  | newTestHandler
  | newAuthHandler
  | newHttpHandler
  | listenAndServe
  | shutdown (timeoutSeconds : Nat)
  | disconnect
  deriving DecidableEq, Repr

/-- The three methods of the logger. -/
inductive LogLevel where
  | info
  | warn
  | error
  deriving DecidableEq, Repr

/-- Who cancels the context of `Run`: an interrupt signal (or the parent
context), or the deferred `cancel()` of `Run` itself. -/
inductive Canceller where
  | signal
  | deferred
  deriving DecidableEq, Repr

/-- What can be observed of an execution of `Run`. -/
inductive RunEvent where
  | call (c : RunCall)
  | log (level : LogLevel) (msg : String)
  | ctxCancelled (by_ : Canceller)
  | listenReturned (err : Option GoError)
  | shutdownReturned (err : Option GoError)
  | disconnectReturned (err : Option GoError)
  | wgDone
  | runReturned (err : Option GoError)
  deriving DecidableEq, Repr

/-- The collaborators of `Run`: the error each constructor answers (`none` is
nil), the two results of `CheckHealth`, the server's address, and what
`ListenAndServe`, `Shutdown` and `Disconnect` return. -/
structure RunEnv where
  envConfigErr : Option GoError
  newDBErr : Option GoError
  checkHealth : Bool × Option GoError
  newManagerErr : Option GoError
  newTestStoreErr : Option GoError
  newUserStoreErr : Option GoError
  newTestServiceErr : Option GoError
  newAuthServiceErr : Option GoError
  newTestHandlerErr : Option GoError
  newAuthHandlerErr : Option GoError
  addr : String
  listenErr : Option GoError
  shutdownErr : Option GoError
  disconnectErr : Option GoError

/-- The constant `bcrypt.DefaultCost`. -/
def DefaultCost : Int := 10

/-- The error `http.ErrServerClosed`. -/
def ErrServerClosed : GoError := .leaf "http: Server closed"

/-- The sequential first part of `Run`, up to the construction of the server:
the calls made, and the error `Run` returns early with (`none` when every step
succeeded and `Run` goes on to serve). -/
def startup (env : RunEnv) : List RunEvent × Option GoError :=
  let t := [.call .newDefaultLogger, .call .newEnvConfig]
  match env.envConfigErr with
  | some err => (t, some (ErrorfW "creating env config failed: " (some err)))
  | none =>
  let t := t ++ [.call .newBcrypt]
  match (NewBcrypt DefaultCost).2 with
  | some err => (t, some (ErrorfW "creating bcrypt failed: " (some err)))
  | none =>
  let t := t ++ [.call .newDB]
  match env.newDBErr with
  | some err => (t, some (ErrorfW "creating psqldb failed: " (some err)))
  | none =>
  let t := t ++ [.call .checkHealth]
  match env.checkHealth.2 with
  | some err => (t, some (ErrorfW "check psqldb health failed: " (some err)))
  | none =>
  let t := t ++ [.call .newManager]
  match env.newManagerErr with
  | some err => (t, some (ErrorfW "creating txManager failed: " (some err)))
  | none =>
  let t := t ++ [.call .newTestStore]
  match env.newTestStoreErr with
  | some err => (t, some (ErrorfW "creating testStoreSQL failed: " (some err)))
  | none =>
  let t := t ++ [.call .newUserStore]
  match env.newUserStoreErr with
  | some err => (t, some (ErrorfW "creating userStoreSQL failed: " (some err)))
  | none =>
  let t := t ++ [.call .newTestService]
  match env.newTestServiceErr with
  | some err => (t, some (ErrorfW "creating testService failed: " (some err)))
  | none =>
  let t := t ++ [.call .newAuthService]
  match env.newAuthServiceErr with
  | some err => (t, some (ErrorfW "creating authService failed: " (some err)))
  | none =>
  let t := t ++ [.call .newTestHandler]
  match env.newTestHandlerErr with
  | some err => (t, some (ErrorfW "creating testHandler failed: " (some err)))
  | none =>
  let t := t ++ [.call .newAuthHandler]
  match env.newAuthHandlerErr with
  | some err => (t, some (ErrorfW "creating authHandler failed: " (some err)))
  | none => (t ++ [.call .newHttpHandler], none)

/-- Where the goroutine of `Run` itself stands. -/
inductive MainPc where
  | start
  | goListen
  | wgAdd
  | goShutdown
  | wgWait
  | returned
  deriving DecidableEq, Repr

/-- Where the goroutine `listenAndServe` stands. -/
inductive ListenPc where
  | idle
  | entry
  | serving
  | done
  deriving DecidableEq, Repr

/-- Where the goroutine `shutdownGracefully` stands. -/
inductive ShutPc where
  | idle
  | waitCtx
  | callShutdown
  | inShutdown
  | callDisconnect
  | inDisconnect
  | done
  deriving DecidableEq, Repr

/-- The state of an execution of `Run`: the events so far (oldest first), the
three goroutines, whether the context is cancelled, the counter of the wait
group, and the value `Run` returned once it has. -/
structure RunState where
  trace : List RunEvent
  mainPc : MainPc
  listenPc : ListenPc
  shutPc : ShutPc
  ctxDone : Bool
  wg : Nat
  result : Option (Option GoError)
  deriving DecidableEq, Repr

/-- The state when `Run` is called. -/
def RunState.init : RunState :=
  { trace := [], mainPc := .start, listenPc := .idle, shutPc := .idle,
    ctxDone := false, wg := 0, result := none }

/-- Who takes the next step: one of the three goroutines, or the environment
cancelling the context (an interrupt, or the parent context). -/
inductive Actor where
  | main
  | listen
  | shutdown
  | signal
  deriving DecidableEq, Repr

/-- One step of the goroutine of `Run`; `none` when it is blocked or has
returned.  On return the deferred `cancel()` runs first. -/
def stepMain (env : RunEnv) (s : RunState) : Option RunState :=
  match s.mainPc with
  | .start =>
    match startup env with
    | (t, some err) =>
      some { s with
        trace := s.trace ++ t ++ [.ctxCancelled .deferred, .runReturned (some err)],
        ctxDone := true, mainPc := .returned, result := some (some err) }
    | (t, none) => some { s with trace := s.trace ++ t, mainPc := .goListen }
  | .goListen => some { s with listenPc := .entry, mainPc := .wgAdd }
  | .wgAdd => some { s with wg := s.wg + 1, mainPc := .goShutdown }
  | .goShutdown => some { s with shutPc := .waitCtx, mainPc := .wgWait }
  | .wgWait =>
    if s.wg = 0 then
      some { s with
        trace := s.trace ++ [.ctxCancelled .deferred, .runReturned none],
        ctxDone := true, mainPc := .returned, result := some none }
    else none
  | .returned => none

/-- One step of the goroutine `listenAndServe`: it logs and calls
`ListenAndServe`, which later returns; an error other than `ErrServerClosed` is
logged. -/
def stepListen (env : RunEnv) (s : RunState) : Option RunState :=
  match s.listenPc with
  | .idle => none
  | .entry =>
    some { s with
      trace := s.trace ++ [.log .info ("listening on " ++ env.addr), .call .listenAndServe],
      listenPc := .serving }
  | .serving =>
    let logs : List RunEvent :=
      match env.listenErr with
      | some err =>
        if err ≠ ErrServerClosed then
          [.log .error ("error listening and serving " ++ env.addr ++ ": " ++ err.Error)]
        else []
      | none => []
    some { s with trace := s.trace ++ [.listenReturned env.listenErr] ++ logs, listenPc := .done }
  | .done => none

/-- One step of the goroutine `shutdownGracefully`: it waits for the context to
be done, calls `Shutdown` with a context of 5 seconds, logs, calls
`Disconnect`, logs, and at its end runs the deferred `wg.Done()`. -/
def stepShutdown (env : RunEnv) (s : RunState) : Option RunState :=
  match s.shutPc with
  | .idle => none
  | .waitCtx => if s.ctxDone then some { s with shutPc := .callShutdown } else none
  | .callShutdown =>
    some { s with trace := s.trace ++ [.call (.shutdown 5)], shutPc := .inShutdown }
  | .inShutdown =>
    let logs : List RunEvent :=
      match env.shutdownErr with
      | some err => [.log .error ("shutting down http server: " ++ err.Error)]
      | none => []
    some { s with
      trace := s.trace ++ [.shutdownReturned env.shutdownErr] ++ logs
        ++ [.log .warn "server shutdown"],
      shutPc := .callDisconnect }
  | .callDisconnect =>
    some { s with trace := s.trace ++ [.call .disconnect], shutPc := .inDisconnect }
  | .inDisconnect =>
    let logs : List RunEvent :=
      match env.disconnectErr with
      | some err => [.log .error ("closing database: " ++ err.Error)]
      | none => []
    some { s with
      trace := s.trace ++ [.disconnectReturned env.disconnectErr] ++ logs
        ++ [.log .warn "database closed", .wgDone],
      wg := s.wg - 1, shutPc := .done }
  | .done => none

/-- The environment cancels the context of `Run`. -/
def stepSignal (s : RunState) : Option RunState :=
  if s.ctxDone then none
  else some { s with trace := s.trace ++ [.ctxCancelled .signal], ctxDone := true }

/-- One step of the given actor, `none` when it cannot move. -/
def step (env : RunEnv) (a : Actor) (s : RunState) : Option RunState :=
  match a with
  | .main => stepMain env s
  | .listen => stepListen env s
  | .shutdown => stepShutdown env s
  | .signal => stepSignal s

/-- The execution of `Run` under a schedule: the actors move in the given order,
one that cannot move is passed over. -/
def exec (env : RunEnv) : List Actor → RunState → RunState
  | [], s => s
  | a :: sched, s =>
    match step env a s with
    | some s1 => exec env sched s1
    | none => exec env sched s

/-- The function `Run` of `app.go` under a schedule of its goroutines. -/
def Run (env : RunEnv) (sched : List Actor) : RunState :=
  exec env sched RunState.init

/-- In the trace `t`, every occurrence of the event `b` has an event
satisfying `P` somewhere before it. -/
def PrecededBy (P : RunEvent → Prop) (b : RunEvent) (t : List RunEvent) : Prop :=
  ∀ pre post, t = pre ++ b :: post → ∃ x ∈ pre, P x

/-- Whether the event is a cancellation of the context of `Run`. -/
def isCtxCancelled : RunEvent → Bool
  | .ctxCancelled _ => true
  | _ => false

/-- The invariant of the executions of `Run`: how the program points of the
three goroutines, the wait group and the context relate to each other and to
the events so far. -/
structure RunInv (env : RunEnv) (s : RunState) : Prop where
  serving : s.mainPc ≠ .start → s.mainPc ≠ .returned →
    (startup env).2 = none ∧ .call .checkHealth ∈ s.trace
  listening : s.listenPc ≠ .idle → (startup env).2 = none ∧ .call .checkHealth ∈ s.trace
  notSpawned : s.mainPc = .start ∨ s.mainPc = .goListen ∨ s.mainPc = .wgAdd
    ∨ s.mainPc = .goShutdown → s.shutPc = .idle
  listenIdle : s.mainPc = .start → s.listenPc = .idle
  counter : s.wg = if (s.mainPc = .goShutdown ∨ s.mainPc = .wgWait
      ∨ (s.mainPc = .returned ∧ (startup env).2 = none)) ∧ s.shutPc ≠ .done then 1 else 0
  returnedDone : s.mainPc = .returned → (startup env).2 = none → s.shutPc = .done
  cancelled : s.ctxDone = true → s.trace.any isCtxCancelled = true
  afterWait : s.shutPc = .callShutdown ∨ s.shutPc = .inShutdown ∨ s.shutPc = .callDisconnect →
    s.trace.any isCtxCancelled = true
  afterCall : s.shutPc = .inShutdown ∨ s.shutPc = .callDisconnect →
    .call (.shutdown 5) ∈ s.trace
  afterShutdown : s.shutPc = .callDisconnect → .shutdownReturned env.shutdownErr ∈ s.trace
  disconnects : s.trace.count (.call .disconnect)
    = if s.shutPc = .inDisconnect ∨ s.shutPc = .done then 1 else 0
  cancelFirst : PrecededBy (fun x => isCtxCancelled x = true) (.call .disconnect) s.trace
  shutdownFirst : PrecededBy (fun x => x = .call (.shutdown 5)) (.call .disconnect) s.trace
  shutdownDone : PrecededBy (fun x => x = .shutdownReturned env.shutdownErr)
    (.call .disconnect) s.trace
  disconnectFirst : (startup env).2 = none →
    ∀ r, PrecededBy (fun x => x = .call .disconnect) (.runReturned r) s.trace
  healthFirst : PrecededBy (fun x => x = .call .checkHealth) (.call .listenAndServe) s.trace
  listenOk : .call .listenAndServe ∈ s.trace → (startup env).2 = none
  resultNone : s.result = none ↔ s.mainPc ≠ .returned
  resultLogged : ∀ r, s.result = some r → .runReturned r ∈ s.trace


/-! ## Sample collaborators and a sample schedule of `Run` -/

/-- Collaborators under which every startup step succeeds and the database
reports itself healthy; `Shutdown` runs into its deadline. -/
def envServing : RunEnv :=
  { envConfigErr := none, newDBErr := none, checkHealth := (true, none),
    newManagerErr := none, newTestStoreErr := none, newUserStoreErr := none,
    newTestServiceErr := none, newAuthServiceErr := none, newTestHandlerErr := none,
    newAuthHandlerErr := none, addr := "localhost:8080",
    listenErr := some ErrServerClosed,
    shutdownErr := some (.leaf "context deadline exceeded"),
    disconnectErr := none }

/-- Collaborators as in `envServing`, but `CheckHealth` answers `false` with a
nil error. -/
def envUnhealthy : RunEnv := { envServing with checkHealth := (false, none) }

/-- Collaborators as in `envServing`, but `CheckHealth` answers an error. -/
def envHealthErr : RunEnv :=
  { envServing with checkHealth := (false, some (.leaf "ping failed")) }

/-- A schedule that takes a serving execution of `Run` to its end: `Run` starts
both goroutines and waits, the server listens, the context is cancelled, the
shutdown goroutine runs through, the server returns, `Run` returns. -/
def fullSchedule : List Actor :=
  [.main, .main, .main, .main, .listen, .signal, .shutdown, .shutdown, .shutdown,
   .shutdown, .shutdown, .listen, .main]


/-! ## Theorems: the migration runner -/

theorem validatedArgs_two (a b : String) :
    validatedArgs [a, b] =
      if b = "-up" ∨ b = "-down" then .ok (b, none)
      else .ok ("", some (errorsNew "invalid arg. allowed arg is either -up or -down")) := by
  by_cases h1 : b = "-up"
  · subst h1; simp [validatedArgs, upArg]
  · by_cases h2 : b = "-down"
    · subst h2; simp [validatedArgs, upArg, downArg]
    · simp [validatedArgs, upArg, downArg, h1, h2, errorsNew]

theorem validatedArgs_length_ne (args : List String) (h : args.length ≠ 2) :
    validatedArgs args =
      .ok ("", some (errorsNew "invalid args length. only 1 given arg is allowed")) := by
  simp [validatedArgs, h]

theorem list_length_two {α : Type} (l : List α) (h : l.length = 2) :
    ∃ a b, l = [a, b] := by
  match l, h with
  | [a, b], _ => exact ⟨a, b, rfl⟩

/-- Claim C2: `validatedArgs` never panics on the index `args[1]`; it returns
`(args[1], nil)` exactly when `args` has length 2 and `args[1]` is `-up` or
`-down`; on every other argument list it returns the empty string with a
non-nil error. -/
theorem validatedArgs_spec (args : List String) :
    (∃ r, validatedArgs args = .ok r) ∧
    ((∃ a, args[1]? = some a ∧ validatedArgs args = .ok (a, none)) ↔
      (args.length = 2 ∧ (args[1]? = some "-up" ∨ args[1]? = some "-down"))) ∧
    (¬ (args.length = 2 ∧ (args[1]? = some "-up" ∨ args[1]? = some "-down")) →
      ∃ e, validatedArgs args = .ok ("", some e)) := by
  by_cases hlen : args.length = 2
  · obtain ⟨a, b, rfl⟩ := list_length_two args hlen
    rw [validatedArgs_two]
    by_cases hb : b = "-up" ∨ b = "-down"
    · simp [hb]
    · have hb1 : ¬ b = "-up" := fun h => hb (Or.inl h)
      have hb2 : ¬ b = "-down" := fun h => hb (Or.inr h)
      simp [hb1, hb2]
  · rw [validatedArgs_length_ne args hlen]
    simp [hlen]

/-- Claim C9: when `config.New` and `migrate.New` succeed, `run` on
`[prog, "-up"]` calls `m.Up` once, never `m.Down`, and returns the result of
`m.Up`; on `[prog, "-down"]` it calls `m.Down` once, never `m.Up`, and returns
the result of `m.Down`; on every other argument list it returns a non-nil
error without calling either, and `main` exits with status 1. -/
theorem run_spec (env : MigEnv) (args : List String)
    (hc : env.configErr = none) (hm : env.migrateErr = none) :
    (∀ prog, args = [prog, "-up"] →
      (run env args).calls.count .up = 1 ∧ (run env args).calls.count .down = 0 ∧
      (run env args).result = .ok env.upResult) ∧
    (∀ prog, args = [prog, "-down"] →
      (run env args).calls.count .down = 1 ∧ (run env args).calls.count .up = 0 ∧
      (run env args).result = .ok env.downResult) ∧
    ((¬ ∃ prog, args = [prog, "-up"] ∨ args = [prog, "-down"]) →
      (∃ e, (run env args).result = .ok (some e)) ∧
      (run env args).calls.count .up = 0 ∧ (run env args).calls.count .down = 0 ∧
      main env args = .exit 1) := by
  refine ⟨?_, ?_, ?_⟩
  · rintro prog rfl
    have h := validatedArgs_two prog "-up"
    simp at h
    simp [run, hc, hm, h, upArg]
  · rintro prog rfl
    have h := validatedArgs_two prog "-down"
    simp at h
    simp [run, hc, hm, h, upArg, downArg]
  · intro hne
    by_cases hlen : args.length = 2
    · obtain ⟨a, b, rfl⟩ := list_length_two args hlen
      have hb1 : ¬ b = "-up" := fun h => hne ⟨a, Or.inl (by rw [h])⟩
      have hb2 : ¬ b = "-down" := fun h => hne ⟨a, Or.inr (by rw [h])⟩
      have h := validatedArgs_two a b
      simp [hb1, hb2] at h
      simp [run, main, hc, hm, h]
    · have h := validatedArgs_length_ne args hlen
      simp [run, main, hc, hm, h]

/-- Claim C9 at a concrete input: on `[db, -up]` the migration goes up, on a
single-element argument list `main` exits with status 1. -/
theorem run_spec_witness :
    (run ⟨none, none, some (.leaf "no change"), none⟩ ["db", "-up"]).result
        = .ok (some (.leaf "no change")) ∧
    main ⟨none, none, none, none⟩ ["db"] = .exit 1 :=
  ⟨((run_spec ⟨none, none, some (.leaf "no change"), none⟩ ["db", "-up"] rfl rfl).1
      "db" rfl).2.2,
   ((run_spec ⟨none, none, none, none⟩ ["db"] rfl rfl).2.2 (by simp)).2.2.2⟩

/-! ## Theorems: the bcrypt wrapper -/

/-- The error `Hash` returns is never nil, whatever the library answers. -/
theorem Bcrypt_Hash_error_ne_nil (lib : BcryptLib) (b : Bcrypt) (plain : String) :
    (Bcrypt.Hash lib b plain).2 ≠ none := by
  simp [Bcrypt.Hash]

/-- When the generation fails, `Hash` returns an error wrapping the library's. -/
theorem Bcrypt_Hash_wraps (lib : BcryptLib) (b : Bcrypt) (plain : String) :
    (Bcrypt.Hash lib b plain).1 = (lib.GenerateFromPassword plain b.cost).1 ∧
    ((Bcrypt.Hash lib b plain).2.bind GoError.Unwrap)
      = (lib.GenerateFromPassword plain b.cost).2 := by
  cases h : (lib.GenerateFromPassword plain b.cost).2 <;>
    simp [Bcrypt.Hash, ErrorfW, GoError.Unwrap, h]

/-- Claim C3, the code at a failing input: with a library whose generation
succeeds (digest returned, nil error), `Hash` at cost 10 on the plaintext
`secret` returns the digest together with a non-nil error, the one `fmt.Errorf`
builds around the nil operand. -/
theorem Bcrypt_Hash_success_returns_error :
    Bcrypt.Hash ⟨fun _ _ => ("$2a$10$digest", none), fun _ _ => none⟩ ⟨10⟩ "secret"
      = ("$2a$10$digest", some (.leaf "bcrypt hash failed: %!w(<nil>)")) := by
  decide

/-- Claim C10: `Compare` returns nil exactly when the library's comparison
returns nil; otherwise it returns a non-nil error that wraps the library's
error (unwrapping the result gives the library's error back), with the message
prefixed by `bcrypt compare failed: `. -/
theorem Bcrypt_Compare_spec (lib : BcryptLib) (b : Bcrypt) (hashed plain : String) :
    (Bcrypt.Compare lib b hashed plain = none ↔
      lib.CompareHashAndPassword hashed plain = none) ∧
    (Bcrypt.Compare lib b hashed plain).bind GoError.Unwrap
      = lib.CompareHashAndPassword hashed plain ∧
    (Bcrypt.Compare lib b hashed plain).map GoError.Error
      = (lib.CompareHashAndPassword hashed plain).map
          (fun e => "bcrypt compare failed: " ++ e.Error) := by
  cases h : lib.CompareHashAndPassword hashed plain <;>
    simp [Bcrypt.Compare, ErrorfW, GoError.Unwrap, GoError.Error, h]

/-! ## Theorems: the codec helpers -/

/-- Claim C4: `DecodeValid` returns a nil error exactly when the body decodes
and `Valid` reports no problem, and then the problems returned are nil; when
decoding fails `Valid` is not called, the problems are nil and the error is
non-nil (it wraps the decoder's); when `Valid` reports at least one problem the
problems returned are those of `Valid` and the error is non-nil. -/
theorem DecodeValid_spec {Body Ctx T : Type} (V : ValidatorType Body Ctx T)
    (body : Body) (ctx : Ctx) :
    ((DecodeValid V body ctx).err = none ↔
      (V.jsonDecode body V.zero).2 = none ∧
        (V.Valid (V.jsonDecode body V.zero).1 ctx).len = 0) ∧
    ((DecodeValid V body ctx).err = none → (DecodeValid V body ctx).problems = none) ∧
    ((V.jsonDecode body V.zero).2 ≠ none →
      (DecodeValid V body ctx).calls.count .valid = 0 ∧
      (DecodeValid V body ctx).problems = none ∧
      (DecodeValid V body ctx).err ≠ none ∧
      (DecodeValid V body ctx).err.bind GoError.Unwrap = (V.jsonDecode body V.zero).2) ∧
    ((V.jsonDecode body V.zero).2 = none →
      (V.Valid (V.jsonDecode body V.zero).1 ctx).len > 0 →
      (DecodeValid V body ctx).calls.count .valid = 1 ∧
      (DecodeValid V body ctx).problems = V.Valid (V.jsonDecode body V.zero).1 ctx ∧
      (DecodeValid V body ctx).err ≠ none) ∧
    (DecodeValid V body ctx).payload = (V.jsonDecode body V.zero).1 := by
  cases hd : (V.jsonDecode body V.zero).2 with
  | some e => simp [DecodeValid, hd, ErrorfW, GoError.Unwrap]
  | none =>
    by_cases hp : (V.Valid (V.jsonDecode body V.zero).1 ctx).len > 0
    · have hp0 : (V.Valid (V.jsonDecode body V.zero).1 ctx).len ≠ 0 := by omega
      simp [DecodeValid, hd, hp, hp0]
    · have hp0 : (V.Valid (V.jsonDecode body V.zero).1 ctx).len = 0 := by omega
      simp [DecodeValid, hd, hp0]

theorem Header_Get_Set (h : Header) (k v : String) : (h.Set k v).Get k = some v := by
  simp [Header.Set, Header.Get, List.find?_append]

/-- Claim C5, as amended: for every status code from 200 to 999 other than 204
and 304, every message and every data value that `encoding/json` marshals, the
response of a handler that calls `Encode`, served through
`http.TimeoutHandler` as `Run` wires it, carries the given status code, the
header `Content-Type: application/json` and as body the JSON encoding of the
envelope followed by a newline; `Encode` returns nil. -/
theorem serveEncode_spec {T : Type} (detect : String → String)
    (marshal : Response T → Except GoError String)
    (statusCode : Int) (message : String) (data : T) (js : String)
    (h1 : 200 ≤ statusCode) (h2 : statusCode ≤ 999)
    (h3 : statusCode ≠ 204) (h4 : statusCode ≠ 304)
    (hm : marshal { Message := message, Data := data } = .ok js) :
    serveEncode detect marshal statusCode message data
      = .ok ({ header := [("Content-Type", "application/json")], wroteHeader := true,
               status := statusCode,
               sentHeader := [("Content-Type", "application/json")],
               body := js ++ "\n" }, none) := by
  have c1 : ¬ (statusCode < 100 ∨ statusCode > 999) := by omega
  have c2 : ¬ (100 ≤ statusCode ∧ statusCode ≤ 199 ∧ statusCode ≠ 101) := by omega
  have c3 : ¬ (100 ≤ statusCode ∧ statusCode ≤ 199) := by omega
  have hb : bodyAllowedForStatus statusCode = true := by
    simp [bodyAllowedForStatus, c3, h3, h4]
  have hs : suppressedHeaders statusCode = [] := by
    simp [suppressedHeaders, hb, h4]
  simp [serveEncode, Encode, timeoutOps, TimeoutWriter.WriteHeader, TimeoutWriter.Write,
    TimeoutWriter.fresh, TimeoutWriter.finish, ServerWriter.fresh, ServerWriter.WriteHeader,
    ServerWriter.Write, checkWriteHeaderCode, c1, c2, hm, hb, hs, Header.Set, Header.Get]

/-- Claim C5 at a concrete input: status 201, message `created`, through
`http.TimeoutHandler`: the response carries 201, the JSON content type and the
encoded envelope with its newline. -/
theorem serveEncode_spec_witness :
    serveEncode (fun _ => "text/plain; charset=utf-8")
        (fun (_ : Response Unit) => .ok "\x7b\"message\":\"created\",\"data\":null\x7d")
        201 "created" ()
      = .ok ({ header := [("Content-Type", "application/json")], wroteHeader := true,
               status := 201,
               sentHeader := [("Content-Type", "application/json")],
               body := "\x7b\"message\":\"created\",\"data\":null\x7d" ++ "\n" }, none) :=
  serveEncode_spec _ _ 201 "created" () _ (by decide) (by decide) (by decide) (by decide) rfl

/-- Claim C5 as stated fails: with status 204 the response carries no body at
all (and `Encode` still returns nil); with status 0 the call of `WriteHeader`
panics and no response is produced; with status 100 the response carries
status 200; and with a data value that `encoding/json` refuses (a function)
the body is empty and `Encode` returns the error. -/
theorem serveEncode_status_without_body :
    serveEncode (fun _ => "text/plain; charset=utf-8")
        (fun (_ : Response Unit) => .ok "\x7b\"message\":\"ok\",\"data\":null\x7d")
        204 "ok" ()
      = .ok ({ header := [("Content-Type", "application/json")], wroteHeader := true,
               status := 204,
               sentHeader := [("Content-Type", "application/json")],
               body := "" }, none) ∧
    serveEncode (fun _ => "text/plain; charset=utf-8")
        (fun (_ : Response Unit) => .ok "\x7b\"message\":\"ok\",\"data\":null\x7d")
        0 "ok" ()
      = .error "invalid WriteHeader code 0" ∧
    serveEncode (fun _ => "text/plain; charset=utf-8")
        (fun (_ : Response Unit) => .ok "\x7b\"message\":\"ok\",\"data\":null\x7d")
        100 "ok" ()
      = .ok ({ header := [("Content-Type", "application/json")], wroteHeader := true,
               status := 200,
               sentHeader := [("Content-Type", "application/json")],
               body := "\x7b\"message\":\"ok\",\"data\":null\x7d\n" }, none) ∧
    serveEncode (fun _ => "text/plain; charset=utf-8")
        (fun (_ : Response (Unit → Unit)) => .error (.leaf "json: unsupported type: func()"))
        200 "ok" (fun u => u)
      = .ok ({ header := [("Content-Type", "application/json")], wroteHeader := true,
               status := 200,
               sentHeader := [("Content-Type", "application/json")],
               body := "" }, some (.leaf "json: unsupported type: func()")) := by
  refine ⟨rfl, rfl, rfl, rfl⟩

/-! ## Theorems: the transaction manager -/

/-- Claim C1, as amended: when the transaction begins, the unit of work is
invoked once; if it returns no error there is one commit and no rollback, if it
returns an error there is one rollback and no commit, and in every case, a
fault included, commits and rollbacks together are exactly one.  When the begin
fails, the unit of work is not invoked and neither a commit nor a rollback
runs: the begin is the only event. -/
theorem RunInTransaction_commit_xor_rollback {Tx R : Type} (beginTx : Except GoError Tx)
    (commitErr : Option GoError) (unitOfWork : Tx → UowOutcome R) :
    (∀ tx, beginTx = .ok tx →
      (∀ r, unitOfWork tx = .ok r →
        (RunInTransaction beginTx commitErr unitOfWork).1.count .commit = 1 ∧
        (RunInTransaction beginTx commitErr unitOfWork).1.count .rollback = 0) ∧
      (∀ e, unitOfWork tx = .fail e →
        (RunInTransaction beginTx commitErr unitOfWork).1.count .rollback = 1 ∧
        (RunInTransaction beginTx commitErr unitOfWork).1.count .commit = 0) ∧
      (RunInTransaction beginTx commitErr unitOfWork).1.count .commit
        + (RunInTransaction beginTx commitErr unitOfWork).1.count .rollback = 1 ∧
      (RunInTransaction beginTx commitErr unitOfWork).1.count .unitOfWork = 1) ∧
    (∀ e, beginTx = .error e →
      (RunInTransaction beginTx commitErr unitOfWork).1 = [.begin]) := by
  constructor
  · intro tx hb
    subst hb
    cases hu : unitOfWork tx with
    | ok r => cases commitErr <;> simp [RunInTransaction, hu]
    | fail e => simp [RunInTransaction, hu]
    | fault => simp [RunInTransaction, hu]
  · intro e hb
    subst hb
    rfl

/-- Claim C1 at a concrete input: the transaction begins, the unit of work
returns 7, the commit succeeds: one commit, no rollback. -/
theorem RunInTransaction_commit_xor_rollback_witness :
    (RunInTransaction (Except.ok ()) none (fun (_ : Unit) => UowOutcome.ok (7 : Nat))).1.count
        .commit = 1 ∧
    (RunInTransaction (Except.ok ()) none (fun (_ : Unit) => UowOutcome.ok (7 : Nat))).1.count
        .rollback = 0 :=
  ((RunInTransaction_commit_xor_rollback (Except.ok ()) none
      (fun (_ : Unit) => UowOutcome.ok (7 : Nat))).1 () rfl).1 7 rfl

/-- Claim C1 as stated fails: when the begin fails (the pool is exhausted),
`RunInTransaction` returns with no commit and no rollback. -/
theorem RunInTransaction_begin_fails_neither :
    (RunInTransaction (Except.error (GoError.leaf "pool exhausted") : Except GoError Unit) none
        (fun (_ : Unit) => UowOutcome.ok (7 : Nat))).1.count .commit
      + (RunInTransaction (Except.error (GoError.leaf "pool exhausted") : Except GoError Unit) none
        (fun (_ : Unit) => UowOutcome.ok (7 : Nat))).1.count .rollback = 0 := by
  decide

/-! ## Theorems: `Run` -/

theorem PrecededBy_append {P : RunEvent → Prop} {b : RunEvent} {t evs : List RunEvent}
    (ht : PrecededBy P b t) (hevs : b ∈ evs → ∃ x ∈ t, P x) :
    PrecededBy P b (t ++ evs) := by
  intro pre post h
  rcases List.append_eq_append_iff.mp h with ⟨a, hpre, hev⟩ | ⟨c, ht2, hc⟩
  · obtain ⟨x, hx, hP⟩ := hevs (by rw [hev]; simp)
    exact ⟨x, by rw [hpre]; simp [hx], hP⟩
  · cases c with
    | nil =>
      simp at ht2 hc
      obtain ⟨x, hx, hP⟩ := hevs (by rw [← hc]; simp)
      exact ⟨x, by rw [← ht2]; exact hx, hP⟩
    | cons c0 cs =>
      simp at hc
      obtain ⟨rfl, -⟩ := hc
      exact ht pre cs ht2

theorem startup_facts (env : RunEnv) :
    .call .listenAndServe ∉ (startup env).1 ∧
    .call .disconnect ∉ (startup env).1 ∧
    (∀ r, .runReturned r ∉ (startup env).1) ∧
    ((startup env).2 = none → .call .checkHealth ∈ (startup env).1) ∧
    ((startup env).2 = none → env.checkHealth.2 = none) := by
  unfold startup
  simp only [NewBcrypt]
  repeat' split
  all_goals simp_all

theorem PrecededBy_append_notin {P : RunEvent → Prop} {b : RunEvent} {t evs : List RunEvent}
    (hevs : b ∉ evs) (ht : PrecededBy P b t) : PrecededBy P b (t ++ evs) :=
  PrecededBy_append ht (fun h => absurd h hevs)

theorem any_of_mem {p : RunEvent → Bool} {t : List RunEvent}
    (h : t.any p = true) : ∃ x ∈ t, p x = true := by
  simpa [List.any_eq_true] using h

theorem RunInv_init (env : RunEnv) : RunInv env RunState.init := by
  constructor <;> simp [RunState.init, PrecededBy]

theorem RunInv_goListen (env : RunEnv) (s : RunState) (hinv : RunInv env s)
    (hpc : s.mainPc = .goListen) :
    RunInv env { s with listenPc := .entry, mainPc := .wgAdd } := by
  obtain ⟨h1, h2, h3, h4, h5, h6, h7, h8, h9, h10, h11, h12, h13, h14, h15, h16, h17,
    h18, h19⟩ := hinv
  constructor
  case cancelFirst => exact h12
  case shutdownFirst => exact h13
  case shutdownDone => exact h14
  case disconnectFirst => exact h15
  case healthFirst => exact h16
  all_goals simp_all

theorem RunInv_wgAdd (env : RunEnv) (s : RunState) (hinv : RunInv env s)
    (hpc : s.mainPc = .wgAdd) :
    RunInv env { s with wg := s.wg + 1, mainPc := .goShutdown } := by
  obtain ⟨h1, h2, h3, h4, h5, h6, h7, h8, h9, h10, h11, h12, h13, h14, h15, h16, h17,
    h18, h19⟩ := hinv
  constructor
  case cancelFirst => exact h12
  case shutdownFirst => exact h13
  case shutdownDone => exact h14
  case disconnectFirst => exact h15
  case healthFirst => exact h16
  all_goals simp_all

theorem RunInv_goShutdown (env : RunEnv) (s : RunState) (hinv : RunInv env s)
    (hpc : s.mainPc = .goShutdown) :
    RunInv env { s with shutPc := .waitCtx, mainPc := .wgWait } := by
  obtain ⟨h1, h2, h3, h4, h5, h6, h7, h8, h9, h10, h11, h12, h13, h14, h15, h16, h17,
    h18, h19⟩ := hinv
  constructor
  case cancelFirst => exact h12
  case shutdownFirst => exact h13
  case shutdownDone => exact h14
  case disconnectFirst => exact h15
  case healthFirst => exact h16
  all_goals simp_all

theorem RunInv_waitCtx (env : RunEnv) (s : RunState) (hinv : RunInv env s)
    (hpc : s.shutPc = .waitCtx) (hc : s.ctxDone = true) :
    RunInv env { s with shutPc := .callShutdown } := by
  obtain ⟨h1, h2, h3, h4, h5, h6, h7, h8, h9, h10, h11, h12, h13, h14, h15, h16, h17,
    h18, h19⟩ := hinv
  constructor
  case cancelFirst => exact h12
  case shutdownFirst => exact h13
  case shutdownDone => exact h14
  case disconnectFirst => exact h15
  case healthFirst => exact h16
  all_goals simp_all

theorem RunInv_callShutdown (env : RunEnv) (s : RunState) (hinv : RunInv env s)
    (hpc : s.shutPc = .callShutdown) :
    RunInv env { s with trace := s.trace ++ [.call (.shutdown 5)], shutPc := .inShutdown } := by
  obtain ⟨h1, h2, h3, h4, h5, h6, h7, h8, h9, h10, h11, h12, h13, h14, h15, h16, h17,
    h18, h19⟩ := hinv
  constructor
  case cancelFirst =>
    try simp only [List.append_assoc]
    exact PrecededBy_append_notin (by simp) h12
  case shutdownFirst =>
    try simp only [List.append_assoc]
    exact PrecededBy_append_notin (by simp) h13
  case shutdownDone =>
    try simp only [List.append_assoc]
    exact PrecededBy_append_notin (by simp) h14
  case disconnectFirst =>
    intro hok r; try simp only [List.append_assoc]
    exact PrecededBy_append_notin (by simp) (h15 hok r)
  case healthFirst =>
    try simp only [List.append_assoc]
    exact PrecededBy_append_notin (by simp) h16
  all_goals simp_all

theorem RunInv_callDisconnect (env : RunEnv) (s : RunState) (hinv : RunInv env s)
    (hpc : s.shutPc = .callDisconnect) :
    RunInv env { s with trace := s.trace ++ [.call .disconnect], shutPc := .inDisconnect } := by
  obtain ⟨h1, h2, h3, h4, h5, h6, h7, h8, h9, h10, h11, h12, h13, h14, h15, h16, h17,
    h18, h19⟩ := hinv
  constructor
  case cancelFirst =>
    exact PrecededBy_append h12 (fun _ => any_of_mem (h8 (by simp [hpc])))
  case shutdownFirst =>
    exact PrecededBy_append h13 (fun _ => ⟨_, h9 (by simp [hpc]), rfl⟩)
  case shutdownDone =>
    exact PrecededBy_append h14 (fun _ => ⟨_, h10 (by simp [hpc]), rfl⟩)
  case disconnectFirst =>
    intro hok r; try simp only [List.append_assoc]
    exact PrecededBy_append_notin (by simp) (h15 hok r)
  case healthFirst =>
    try simp only [List.append_assoc]
    exact PrecededBy_append_notin (by simp) h16
  all_goals simp_all

theorem RunInv_entry (env : RunEnv) (s : RunState) (hinv : RunInv env s)
    (hpc : s.listenPc = .entry) :
    RunInv env { s with trace := s.trace ++ [.log .info ("listening on " ++ env.addr), .call .listenAndServe], listenPc := .serving } := by
  obtain ⟨h1, h2, h3, h4, h5, h6, h7, h8, h9, h10, h11, h12, h13, h14, h15, h16, h17,
    h18, h19⟩ := hinv
  constructor
  case cancelFirst =>
    try simp only [List.append_assoc]
    exact PrecededBy_append_notin (by simp) h12
  case shutdownFirst =>
    try simp only [List.append_assoc]
    exact PrecededBy_append_notin (by simp) h13
  case shutdownDone =>
    try simp only [List.append_assoc]
    exact PrecededBy_append_notin (by simp) h14
  case disconnectFirst =>
    intro hok r; try simp only [List.append_assoc]
    exact PrecededBy_append_notin (by simp) (h15 hok r)
  case healthFirst =>
    exact PrecededBy_append h16 (fun _ => ⟨_, (h2 (by simp [hpc])).2, rfl⟩)
  all_goals simp_all

theorem RunInv_signal (env : RunEnv) (s : RunState) (hinv : RunInv env s)
    :
    RunInv env { s with trace := s.trace ++ [.ctxCancelled .signal], ctxDone := true } := by
  obtain ⟨h1, h2, h3, h4, h5, h6, h7, h8, h9, h10, h11, h12, h13, h14, h15, h16, h17,
    h18, h19⟩ := hinv
  constructor
  case cancelFirst =>
    try simp only [List.append_assoc]
    exact PrecededBy_append_notin (by simp) h12
  case shutdownFirst =>
    try simp only [List.append_assoc]
    exact PrecededBy_append_notin (by simp) h13
  case shutdownDone =>
    try simp only [List.append_assoc]
    exact PrecededBy_append_notin (by simp) h14
  case disconnectFirst =>
    intro hok r; try simp only [List.append_assoc]
    exact PrecededBy_append_notin (by simp) (h15 hok r)
  case healthFirst =>
    try simp only [List.append_assoc]
    exact PrecededBy_append_notin (by simp) h16
  all_goals simp_all [isCtxCancelled]

theorem RunInv_inShutdown (env : RunEnv) (s : RunState) (hinv : RunInv env s)
    (hpc : s.shutPc = .inShutdown) (logs : List RunEvent)
    (hlogs : ∀ x ∈ logs, ∃ l m, x = .log l m) :
    RunInv env { s with
      trace := s.trace ++ [.shutdownReturned env.shutdownErr] ++ logs
        ++ [.log .warn "server shutdown"],
      shutPc := .callDisconnect } := by
  obtain ⟨h1, h2, h3, h4, h5, h6, h7, h8, h9, h10, h11, h12, h13, h14, h15, h16, h17,
    h18, h19⟩ := hinv
  have n1 : RunEvent.call RunCall.disconnect ∉ logs := fun h => by
    obtain ⟨l, m, hx⟩ := hlogs _ h; simp at hx
  have n2 : RunEvent.call RunCall.listenAndServe ∉ logs := fun h => by
    obtain ⟨l, m, hx⟩ := hlogs _ h; simp at hx
  have n3 : ∀ r, RunEvent.runReturned r ∉ logs := fun r h => by
    obtain ⟨l, m, hx⟩ := hlogs _ h; simp at hx
  have n4 : logs.count (RunEvent.call RunCall.disconnect) = 0 := List.count_eq_zero.mpr n1
  constructor
  case cancelFirst =>
    try simp only [List.append_assoc]
    exact PrecededBy_append_notin (by simp [n1, n2, n3]) h12
  case shutdownFirst =>
    try simp only [List.append_assoc]
    exact PrecededBy_append_notin (by simp [n1, n2, n3]) h13
  case shutdownDone =>
    try simp only [List.append_assoc]
    exact PrecededBy_append_notin (by simp [n1, n2, n3]) h14
  case disconnectFirst =>
    intro hok r; try simp only [List.append_assoc]
    exact PrecededBy_append_notin (by simp [n1, n2, n3]) (h15 hok r)
  case healthFirst =>
    try simp only [List.append_assoc]
    exact PrecededBy_append_notin (by simp [n1, n2, n3]) h16
  all_goals simp_all

theorem RunInv_inDisconnect (env : RunEnv) (s : RunState) (hinv : RunInv env s)
    (hpc : s.shutPc = .inDisconnect) (logs : List RunEvent)
    (hlogs : ∀ x ∈ logs, ∃ l m, x = .log l m) :
    RunInv env { s with
      trace := s.trace ++ [.disconnectReturned env.disconnectErr] ++ logs
        ++ [.log .warn "database closed", .wgDone],
      wg := s.wg - 1, shutPc := .done } := by
  obtain ⟨h1, h2, h3, h4, h5, h6, h7, h8, h9, h10, h11, h12, h13, h14, h15, h16, h17,
    h18, h19⟩ := hinv
  have n1 : RunEvent.call RunCall.disconnect ∉ logs := fun h => by
    obtain ⟨l, m, hx⟩ := hlogs _ h; simp at hx
  have n2 : RunEvent.call RunCall.listenAndServe ∉ logs := fun h => by
    obtain ⟨l, m, hx⟩ := hlogs _ h; simp at hx
  have n3 : ∀ r, RunEvent.runReturned r ∉ logs := fun r h => by
    obtain ⟨l, m, hx⟩ := hlogs _ h; simp at hx
  have n4 : logs.count (RunEvent.call RunCall.disconnect) = 0 := List.count_eq_zero.mpr n1
  constructor
  case counter =>
    simp only [h5]; split <;> simp
  case cancelFirst =>
    try simp only [List.append_assoc]
    exact PrecededBy_append_notin (by simp [n1, n2, n3]) h12
  case shutdownFirst =>
    try simp only [List.append_assoc]
    exact PrecededBy_append_notin (by simp [n1, n2, n3]) h13
  case shutdownDone =>
    try simp only [List.append_assoc]
    exact PrecededBy_append_notin (by simp [n1, n2, n3]) h14
  case disconnectFirst =>
    intro hok r; try simp only [List.append_assoc]
    exact PrecededBy_append_notin (by simp [n1, n2, n3]) (h15 hok r)
  case healthFirst =>
    try simp only [List.append_assoc]
    exact PrecededBy_append_notin (by simp [n1, n2, n3]) h16
  all_goals simp_all

theorem RunInv_listenServing (env : RunEnv) (s : RunState) (hinv : RunInv env s)
    (hpc : s.listenPc = .serving) (logs : List RunEvent)
    (hlogs : ∀ x ∈ logs, ∃ l m, x = .log l m) :
    RunInv env { s with trace := s.trace ++ [.listenReturned env.listenErr] ++ logs, listenPc := .done } := by
  obtain ⟨h1, h2, h3, h4, h5, h6, h7, h8, h9, h10, h11, h12, h13, h14, h15, h16, h17,
    h18, h19⟩ := hinv
  have n1 : RunEvent.call RunCall.disconnect ∉ logs := fun h => by
    obtain ⟨l, m, hx⟩ := hlogs _ h; simp at hx
  have n2 : RunEvent.call RunCall.listenAndServe ∉ logs := fun h => by
    obtain ⟨l, m, hx⟩ := hlogs _ h; simp at hx
  have n3 : ∀ r, RunEvent.runReturned r ∉ logs := fun r h => by
    obtain ⟨l, m, hx⟩ := hlogs _ h; simp at hx
  have n4 : logs.count (RunEvent.call RunCall.disconnect) = 0 := List.count_eq_zero.mpr n1
  constructor
  case cancelFirst =>
    try simp only [List.append_assoc]
    exact PrecededBy_append_notin (by simp [n1, n2, n3]) h12
  case shutdownFirst =>
    try simp only [List.append_assoc]
    exact PrecededBy_append_notin (by simp [n1, n2, n3]) h13
  case shutdownDone =>
    try simp only [List.append_assoc]
    exact PrecededBy_append_notin (by simp [n1, n2, n3]) h14
  case disconnectFirst =>
    intro hok r; try simp only [List.append_assoc]
    exact PrecededBy_append_notin (by simp [n1, n2, n3]) (h15 hok r)
  case healthFirst =>
    try simp only [List.append_assoc]
    exact PrecededBy_append_notin (by simp [n1, n2, n3]) h16
  all_goals simp_all

theorem RunInv_startFail (env : RunEnv) (s : RunState) (hinv : RunInv env s)
    (hpc : s.mainPc = .start) (err : GoError)
    (hst : (startup env).2 = some err) :
    RunInv env { s with
      trace := s.trace ++ (startup env).1 ++ [.ctxCancelled .deferred, .runReturned (some err)],
      ctxDone := true, mainPc := .returned, result := some (some err) } := by
  obtain ⟨h1, h2, h3, h4, h5, h6, h7, h8, h9, h10, h11, h12, h13, h14, h15, h16, h17,
    h18, h19⟩ := hinv
  obtain ⟨n2, n1, n3, n5, -⟩ := startup_facts env
  have n4 : (startup env).1.count (RunEvent.call RunCall.disconnect) = 0 :=
    List.count_eq_zero.mpr n1
  constructor
  case cancelFirst =>
    try simp only [List.append_assoc]
    exact PrecededBy_append_notin (by simp [n1, n2, n3]) h12
  case shutdownFirst =>
    try simp only [List.append_assoc]
    exact PrecededBy_append_notin (by simp [n1, n2, n3]) h13
  case shutdownDone =>
    try simp only [List.append_assoc]
    exact PrecededBy_append_notin (by simp [n1, n2, n3]) h14
  case disconnectFirst =>
    intro hok; rw [hst] at hok; cases hok
  case healthFirst =>
    try simp only [List.append_assoc]
    exact PrecededBy_append_notin (by simp [n1, n2, n3]) h16
  all_goals simp_all [isCtxCancelled]

theorem RunInv_startOk (env : RunEnv) (s : RunState) (hinv : RunInv env s)
    (hpc : s.mainPc = .start)
    (hst : (startup env).2 = none) :
    RunInv env { s with trace := s.trace ++ (startup env).1, mainPc := .goListen } := by
  obtain ⟨h1, h2, h3, h4, h5, h6, h7, h8, h9, h10, h11, h12, h13, h14, h15, h16, h17,
    h18, h19⟩ := hinv
  obtain ⟨n2, n1, n3, n5, -⟩ := startup_facts env
  have n4 : (startup env).1.count (RunEvent.call RunCall.disconnect) = 0 :=
    List.count_eq_zero.mpr n1
  constructor
  case cancelFirst =>
    try simp only [List.append_assoc]
    exact PrecededBy_append_notin (by simp [n1, n2, n3]) h12
  case shutdownFirst =>
    try simp only [List.append_assoc]
    exact PrecededBy_append_notin (by simp [n1, n2, n3]) h13
  case shutdownDone =>
    try simp only [List.append_assoc]
    exact PrecededBy_append_notin (by simp [n1, n2, n3]) h14
  case disconnectFirst =>
    intro hok r; try simp only [List.append_assoc]
    exact PrecededBy_append_notin (by simp [n1, n2, n3]) (h15 hok r)
  case healthFirst =>
    try simp only [List.append_assoc]
    exact PrecededBy_append_notin (by simp [n1, n2, n3]) h16
  all_goals simp_all

theorem RunInv_wgWait (env : RunEnv) (s : RunState) (hinv : RunInv env s)
    (hpc : s.mainPc = .wgWait) (hwg : s.wg = 0) :
    RunInv env { s with
      trace := s.trace ++ [.ctxCancelled .deferred, .runReturned none],
      ctxDone := true, mainPc := .returned, result := some none } := by
  obtain ⟨h1, h2, h3, h4, h5, h6, h7, h8, h9, h10, h11, h12, h13, h14, h15, h16, h17,
    h18, h19⟩ := hinv
  have hdone : s.shutPc = .done := by
    by_contra hne
    rw [if_pos ⟨Or.inr (Or.inl hpc), hne⟩] at h5
    omega
  have hmem : RunEvent.call RunCall.disconnect ∈ s.trace := by
    apply List.count_pos_iff.mp
    rw [h11, if_pos (Or.inr hdone)]
    exact Nat.one_pos
  constructor
  case cancelFirst =>
    try simp only [List.append_assoc]
    exact PrecededBy_append_notin (by simp) h12
  case shutdownFirst =>
    try simp only [List.append_assoc]
    exact PrecededBy_append_notin (by simp) h13
  case shutdownDone =>
    try simp only [List.append_assoc]
    exact PrecededBy_append_notin (by simp) h14
  case disconnectFirst =>
    intro hok r; exact PrecededBy_append (h15 hok r) (fun _ => ⟨_, hmem, rfl⟩)
  case healthFirst =>
    try simp only [List.append_assoc]
    exact PrecededBy_append_notin (by simp) h16
  all_goals simp_all [isCtxCancelled]

theorem RunInv_step (env : RunEnv) (a : Actor) (s s1 : RunState) (hinv : RunInv env s)
    (hstep : step env a s = some s1) : RunInv env s1 := by
  cases a with
  | main =>
    simp only [step, stepMain] at hstep
    cases hpc : s.mainPc <;> simp only [hpc] at hstep
    · rcases hst : startup env with ⟨t, _ | err⟩
      · simp only [hst, Option.some.injEq] at hstep
        subst hstep
        have h := RunInv_startOk env s hinv hpc (by rw [hst])
        rw [hst] at h
        exact h
      · simp only [hst, Option.some.injEq] at hstep
        subst hstep
        have h := RunInv_startFail env s hinv hpc err (by rw [hst])
        rw [hst] at h
        exact h
    · simp only [Option.some.injEq] at hstep
      subst hstep
      exact RunInv_goListen env s hinv hpc
    · simp only [Option.some.injEq] at hstep
      subst hstep
      exact RunInv_wgAdd env s hinv hpc
    · simp only [Option.some.injEq] at hstep
      subst hstep
      exact RunInv_goShutdown env s hinv hpc
    · by_cases hwg : s.wg = 0
      · rw [if_pos hwg] at hstep
        simp only [Option.some.injEq] at hstep
        subst hstep
        exact RunInv_wgWait env s hinv hpc hwg
      · rw [if_neg hwg] at hstep
        cases hstep
    · cases hstep
  | listen =>
    simp only [step, stepListen] at hstep
    cases hpc : s.listenPc <;> simp only [hpc] at hstep
    · cases hstep
    · simp only [Option.some.injEq] at hstep
      subst hstep
      exact RunInv_entry env s hinv hpc
    · simp only [Option.some.injEq] at hstep
      subst hstep
      refine RunInv_listenServing env s hinv hpc _ ?_
      intro x hx
      cases hE : env.listenErr with
      | none => simp [hE] at hx
      | some err =>
        simp only [hE] at hx
        split at hx
        · simp at hx; exact ⟨_, _, hx⟩
        · simp at hx
    · cases hstep
  | shutdown =>
    simp only [step, stepShutdown] at hstep
    cases hpc : s.shutPc <;> simp only [hpc] at hstep
    · cases hstep
    · by_cases hc : s.ctxDone = true
      · rw [if_pos hc] at hstep
        simp only [Option.some.injEq] at hstep
        subst hstep
        exact RunInv_waitCtx env s hinv hpc hc
      · rw [if_neg hc] at hstep
        cases hstep
    · simp only [Option.some.injEq] at hstep
      subst hstep
      exact RunInv_callShutdown env s hinv hpc
    · simp only [Option.some.injEq] at hstep
      subst hstep
      refine RunInv_inShutdown env s hinv hpc _ ?_
      intro x hx
      cases hE : env.shutdownErr with
      | none => simp [hE] at hx
      | some err => simp [hE] at hx; exact ⟨_, _, hx⟩
    · simp only [Option.some.injEq] at hstep
      subst hstep
      exact RunInv_callDisconnect env s hinv hpc
    · simp only [Option.some.injEq] at hstep
      subst hstep
      refine RunInv_inDisconnect env s hinv hpc _ ?_
      intro x hx
      cases hE : env.disconnectErr with
      | none => simp [hE] at hx
      | some err => simp [hE] at hx; exact ⟨_, _, hx⟩
    · cases hstep
  | signal =>
    simp only [step, stepSignal] at hstep
    by_cases hc : s.ctxDone = true
    · rw [if_pos hc] at hstep
      cases hstep
    · rw [if_neg hc] at hstep
      simp only [Option.some.injEq] at hstep
      subst hstep
      exact RunInv_signal env s hinv

theorem RunInv_exec (env : RunEnv) (sched : List Actor) (s : RunState) (hinv : RunInv env s) :
    RunInv env (exec env sched s) := by
  induction sched generalizing s with
  | nil => exact hinv
  | cons a rest ih =>
    simp only [exec]
    cases hstep : step env a s with
    | none => exact ih s hinv
    | some s1 => exact ih s1 (RunInv_step env a s s1 hinv hstep)

theorem RunInv_Run (env : RunEnv) (sched : List Actor) : RunInv env (Run env sched) :=
  RunInv_exec env sched _ (RunInv_init env)

theorem step_keeps_main (env : RunEnv) (a : Actor) (s s1 : RunState) (ha : a ≠ .main)
    (hstep : step env a s = some s1) : s1.mainPc = s.mainPc ∧ s1.result = s.result := by
  cases a with
  | main => exact absurd rfl ha
  | listen =>
    simp only [step, stepListen] at hstep
    split at hstep <;> first | (cases hstep; exact ⟨rfl, rfl⟩) | cases hstep
  | shutdown =>
    simp only [step, stepShutdown] at hstep
    split at hstep
    · cases hstep
    · split at hstep
      · cases hstep; exact ⟨rfl, rfl⟩
      · cases hstep
    all_goals first | (cases hstep; exact ⟨rfl, rfl⟩) | cases hstep
  | signal =>
    simp only [step, stepSignal] at hstep
    split at hstep
    · cases hstep
    · cases hstep; exact ⟨rfl, rfl⟩

theorem exec_returned (env : RunEnv) (sched : List Actor) (s : RunState)
    (hpc : s.mainPc = .returned) : (exec env sched s).result = s.result := by
  induction sched generalizing s with
  | nil => rfl
  | cons a rest ih =>
    simp only [exec]
    cases hstep : step env a s with
    | none => exact ih s hpc
    | some s1 =>
      by_cases ha : a = .main
      · subst ha
        simp [step, stepMain, hpc] at hstep
      · obtain ⟨h1, h2⟩ := step_keeps_main env a s s1 ha hstep
        rw [ih s1 (by rw [h1, hpc]), h2]

theorem exec_startup_fail (env : RunEnv) (err : GoError) (hst : (startup env).2 = some err)
    (sched : List Actor) (s : RunState) (hpc : s.mainPc = .start) (hm : .main ∈ sched) :
    (exec env sched s).result = some (some err) := by
  induction sched generalizing s with
  | nil => simp at hm
  | cons a rest ih =>
    simp only [exec]
    by_cases ha : a = .main
    · subst ha
      rcases hs : startup env with ⟨t, r⟩
      rw [hs] at hst
      simp only at hst
      subst hst
      simp only [step, stepMain, hpc, hs]
      rw [exec_returned env rest _ rfl]
    · have hm2 : .main ∈ rest := by
        rcases List.mem_cons.mp hm with h | h
        · exact absurd h.symm ha
        · exact h
      cases hstep : step env a s with
      | none => exact ih s hpc hm2
      | some s1 =>
        obtain ⟨h1, -⟩ := step_keeps_main env a s s1 ha hstep
        exact ih s1 (by rw [h1, hpc]) hm2

theorem Run_fullSchedule_returns (env : RunEnv) (hok : (startup env).2 = none) :
    (Run env fullSchedule).result = some none := by
  rcases hs : startup env with ⟨t, r⟩
  rw [hs] at hok
  simp only at hok
  subst hok
  simp [Run, fullSchedule, exec, step, stepMain, stepListen, stepShutdown, stepSignal,
    RunState.init, hs]

theorem mem_of_split {b : RunEvent} {t pre post : List RunEvent} (h : t = pre ++ b :: post) :
    b ∈ t := by
  rw [h]; simp

theorem startup_checkHealth_bool (env : RunEnv) (b : Bool) :
    startup { env with checkHealth := (b, env.checkHealth.2) } = startup env := rfl

theorem step_checkHealth_bool (env : RunEnv) (b : Bool) (a : Actor) (s : RunState) :
    step { env with checkHealth := (b, env.checkHealth.2) } a s = step env a s := by
  cases a <;> rfl

theorem exec_checkHealth_bool (env : RunEnv) (b : Bool) (sched : List Actor) (s : RunState) :
    exec { env with checkHealth := (b, env.checkHealth.2) } sched s = exec env sched s := by
  induction sched generalizing s with
  | nil => rfl
  | cons a rest ih =>
    simp only [exec, step_checkHealth_bool]
    cases step env a s with
    | none => exact ih s
    | some s1 => exact ih s1

/-- Claim C6, as amended: in every execution of `Run` a call of
`ListenAndServe` comes after the call of `CheckHealth`, and that call returned
no error; whenever `CheckHealth` returns an error, the listener is never
started and `Run`, once it has run, has returned a non-nil error; and the
boolean `CheckHealth` reports is discarded: the execution of `Run` is the same
whatever that boolean is. -/
theorem Run_listens_only_after_health_check (env : RunEnv) (sched : List Actor) :
    (∀ pre post, (Run env sched).trace = pre ++ .call .listenAndServe :: post →
      .call .checkHealth ∈ pre ∧ env.checkHealth.2 = none) ∧
    (∀ e, env.checkHealth.2 = some e →
      .call .listenAndServe ∉ (Run env sched).trace ∧
      (.main ∈ sched → ∃ err, (Run env sched).result = some (some err))) ∧
    (∀ b, Run { env with checkHealth := (b, env.checkHealth.2) } sched = Run env sched) := by
  have hinv := RunInv_Run env sched
  have hfacts := startup_facts env
  refine ⟨?_, ?_, ?_⟩
  · intro pre post h
    obtain ⟨x, hx, rfl⟩ := hinv.healthFirst pre post h
    exact ⟨hx, hfacts.2.2.2.2 (hinv.listenOk (mem_of_split h))⟩
  · intro e he
    have hne : (startup env).2 ≠ none := fun h => by
      rw [hfacts.2.2.2.2 h] at he; cases he
    refine ⟨fun hmem => hne (hinv.listenOk hmem), fun hm => ?_⟩
    cases hs : (startup env).2 with
    | none => exact absurd hs hne
    | some err => exact ⟨err, exec_startup_fail env err hs sched _ rfl hm⟩
  · intro b
    exact exec_checkHealth_bool env b sched _

/-- Claim C6 at a concrete input: `CheckHealth` answers an error, `Run` is
scheduled once; it returns the wrapped error and never listens. -/
theorem Run_listens_only_after_health_check_witness :
    envHealthErr.checkHealth.2 = some (.leaf "ping failed") ∧
    .call .listenAndServe ∉ (Run envHealthErr [.main]).trace ∧
    ∃ err, (Run envHealthErr [.main]).result = some (some err) :=
  ⟨rfl,
   ((Run_listens_only_after_health_check envHealthErr [.main]).2.1 _ rfl).1,
   ((Run_listens_only_after_health_check envHealthErr [.main]).2.1 _ rfl).2 (by decide)⟩

/-- Claim C6 as stated fails: `CheckHealth` reports `false` with a nil error, and
`Run` nevertheless starts the listener and ends by returning nil. -/
theorem Run_unhealthy_still_listens :
    envUnhealthy.checkHealth = (false, none) ∧
    .call .listenAndServe ∈ (Run envUnhealthy fullSchedule).trace ∧
    (Run envUnhealthy fullSchedule).result = some none := by
  decide

/-- Claim C7 as stated fails: `NewDB` succeeds, `CheckHealth` answers an error,
and `Run` returns that error without a single call of `Disconnect`. -/
theorem Run_health_error_no_disconnect :
    envHealthErr.newDBErr = none ∧
    .call .newDB ∈ (Run envHealthErr [.main]).trace ∧
    (Run envHealthErr [.main]).result
      = some (some (.wrap "check psqldb health failed: ping failed" (.leaf "ping failed"))) ∧
    (Run envHealthErr [.main]).trace.count (.call .disconnect) = 0 := by
  decide

/-- Claim C7, as amended: in every execution of `Run` in which `NewDB` and every
later startup step succeed, when `Run` has returned the return is recorded, and
before that return `Disconnect` has been called exactly once (and exactly once
in the whole execution); and `Run` does return under the full schedule. -/
theorem Run_disconnect_once_when_serving (env : RunEnv) (sched : List Actor)
    (hok : (startup env).2 = none) :
    (∀ r, (Run env sched).result = some r → .runReturned r ∈ (Run env sched).trace) ∧
    (∀ r pre post, (Run env sched).trace = pre ++ .runReturned r :: post →
      pre.count (.call .disconnect) = 1 ∧
      (Run env sched).trace.count (.call .disconnect) = 1) ∧
    (Run env fullSchedule).result = some none := by
  have hinv := RunInv_Run env sched
  refine ⟨hinv.resultLogged, ?_, Run_fullSchedule_returns env hok⟩
  intro r pre post h
  obtain ⟨x, hx, rfl⟩ := hinv.disconnectFirst hok r pre post h
  have hpos : 0 < pre.count (.call .disconnect) := List.count_pos_iff.mpr hx
  have hle : (Run env sched).trace.count (.call .disconnect) ≤ 1 := by
    rw [hinv.disconnects]; split <;> simp
  have hsum : (Run env sched).trace.count (.call .disconnect)
      = pre.count (.call .disconnect) + (RunEvent.runReturned r :: post).count (.call .disconnect) := by
    rw [h, List.count_append]
  omega

/-- Claim C7 at a concrete input: every startup step succeeds, the full
schedule runs, `Run` returns nil and `Disconnect` was called once before. -/
theorem Run_disconnect_once_when_serving_witness :
    (startup envServing).2 = none ∧
    (Run envServing fullSchedule).result = some none ∧
    ((Run envServing fullSchedule).trace.take 26).count (.call .disconnect) = 1 ∧
    (Run envServing fullSchedule).trace.count (.call .disconnect) = 1 :=
  ⟨by decide,
   (Run_disconnect_once_when_serving envServing fullSchedule (by decide)).2.2,
   (Run_disconnect_once_when_serving envServing fullSchedule (by decide)).2.1 none
     ((Run envServing fullSchedule).trace.take 26) ((Run envServing fullSchedule).trace.drop 27)
     (by decide)⟩

/-- Claim C8: in every execution of `Run` that reaches the serving stage, before
each call of `Disconnect` the context has been cancelled, `Shutdown` has been
called with its 5-second context and has returned (with whatever it returns, an
error or nil); and before `Run` returns `Disconnect` has been called. -/
theorem Run_disconnect_after_shutdown (env : RunEnv) (sched : List Actor)
    (hok : (startup env).2 = none) :
    (∀ pre post, (Run env sched).trace = pre ++ .call .disconnect :: post →
      pre.any isCtxCancelled = true ∧ .call (.shutdown 5) ∈ pre ∧
      .shutdownReturned env.shutdownErr ∈ pre) ∧
    (∀ r pre post, (Run env sched).trace = pre ++ .runReturned r :: post →
      .call .disconnect ∈ pre) := by
  have hinv := RunInv_Run env sched
  constructor
  · intro pre post h
    obtain ⟨x, hx, hc⟩ := hinv.cancelFirst pre post h
    obtain ⟨y, hy, rfl⟩ := hinv.shutdownFirst pre post h
    obtain ⟨z, hz, rfl⟩ := hinv.shutdownDone pre post h
    exact ⟨List.any_eq_true.mpr ⟨x, hx, hc⟩, hy, hz⟩
  · intro r pre post h
    obtain ⟨x, hx, rfl⟩ := hinv.disconnectFirst hok r pre post h
    exact hx

/-- Claim C8 at a concrete input: `Shutdown` returns an error (its deadline),
and still the 20 events before the call of `Disconnect` hold the cancellation,
the call of `Shutdown` and its return. -/
theorem Run_disconnect_after_shutdown_witness :
    (startup envServing).2 = none ∧
    (Run envServing fullSchedule).trace
      = (Run envServing fullSchedule).trace.take 20 ++ .call .disconnect
          :: (Run envServing fullSchedule).trace.drop 21 ∧
    ((Run envServing fullSchedule).trace.take 20).any isCtxCancelled = true ∧
    .call (.shutdown 5) ∈ (Run envServing fullSchedule).trace.take 20 ∧
    .shutdownReturned (some (.leaf "context deadline exceeded"))
      ∈ (Run envServing fullSchedule).trace.take 20 :=
  ⟨by decide, by decide,
   (Run_disconnect_after_shutdown envServing fullSchedule (by decide)).1
     ((Run envServing fullSchedule).trace.take 20) ((Run envServing fullSchedule).trace.drop 21)
     (by decide)⟩

end Ecommerce
